import Mathlib

/-!
Verification of the Uniswap liquidity bot's decision/execution core.

The Python sources are shallowly embedded:
* Python `int()` on a float quotient is modelled as truncation toward zero
  on an exact rational (`pyInt`); Python `//` is `Int.fdiv` (floor division).
* Floating-point quantities (prices, log-ratios, balances) are modelled as
  exact rationals; transcendental values (`ln price / ln 1.0001`) are taken
  as explicit inputs, since the integer post-processing under verification is
  a function of those values only.
* Externally fetched data (position info, pool state, balances) appear as
  explicit arguments; blockchain submissions are modelled by the parameters
  the code would submit.
-/

namespace UniswapBot

/-- Python `int()` applied to an exact rational: truncation toward zero
(`num.div den` is T-division; the denominator is positive). -/
def pyInt (q : ℚ) : ℤ := Int.tdiv q.num (q.den : ℤ)

/-! ### TickMath (utils/helpers.py, core/uniswap.py) -/

/-- `price_to_tick` (helpers.py line 78-80) as a function of the exact
log-ratio `ln(price)/ln(1.0001)`: `int(math.log(price) / math.log(1.0001))`
truncates the quotient toward zero. -/
def price_to_tick (logRatio : ℚ) : ℤ := pyInt logRatio

/-- `price_to_tick` as guarded at the `calculate_tick_range` call site
(uniswap.py lines 329-333): `math.log` raises `ValueError` on
`price <= 0`, caught and turned into a `None` result. The price is paired
with its exact log-ratio. -/
def price_to_tick_checked (price logRatio : ℚ) : Option ℤ :=
  if price ≤ 0 then none else some (price_to_tick logRatio)

def MIN_TICK : ℤ := -887272
def MAX_TICK : ℤ := 887272

/-- The integer rounding / minimum-width block of `calculate_tick_range`
(uniswap.py lines 347-367), on the already-converted ticks.
Returns `(lower_tick, upper_tick)`. -/
def round_ticks (current_tick upper0 lower0 tick_spacing : ℤ) : ℤ × ℤ :=
  let upper1 := (Int.fdiv upper0 tick_spacing + 1) * tick_spacing
  let lower1 := Int.fdiv lower0 tick_spacing * tick_spacing
  if tick_spacing = 1 then
    if upper1 - lower1 < 30 then
      let ctr := Int.fdiv current_tick tick_spacing * tick_spacing
      (Int.fdiv (ctr - 15) tick_spacing * tick_spacing,
       (Int.fdiv (ctr + 15) tick_spacing + 1) * tick_spacing)
    else (lower1, upper1)
  else
    if upper1 - lower1 < 2 * tick_spacing then
      let ctr := Int.fdiv current_tick tick_spacing * tick_spacing
      (ctr - tick_spacing, ctr + tick_spacing)
    else (lower1, upper1)

/-- `calculate_tick_range` (uniswap.py lines 316-388). The three float
log-conversions are abstracted by their exact log-ratios
(`logCur = ln(current_price)/ln 1.0001`, and the same for the upper and
lower prices); everything after `int(...)` follows the source. -/
def calculate_tick_range (current_price range_percent : ℚ)
    (logCur logUpper logLower : ℚ) (tick_spacing : ℤ) : Option (ℤ × ℤ) :=
  if current_price ≤ 0 then none
  else if range_percent ≤ 0 then none
  else
    let rounded := round_ticks (price_to_tick logCur) (price_to_tick logUpper)
      (price_to_tick logLower) tick_spacing
    if rounded.1 < MIN_TICK ∨ MAX_TICK < rounded.2 then none
    else some rounded

/-! ### Position health analysis (core/rebalancer.py lines 282-305) -/

inductive Urgency
  | HIGH
  | MEDIUM
  | LOW
  deriving DecidableEq

inductive RebalanceTrigger
  | outOfRange
  | nearEdge
  | zeroLiquidity
  | lowEfficiency
  | highVolatility
  | noTrigger
  deriving DecidableEq

/-- The dict returned by `check_position_range_status` (price_monitor.py):
it carries `in_range` and `position_ratio`; `range_utilization` and
`volatility` are read with `.get(key, default)` in the analyzer, so they are
optional here. -/
structure RangeStatusDict where
  in_range : Bool
  position_ratio : ℚ
  range_utilization : Option ℚ
  volatility : Option ℚ

/-- The classification chain of `analyze_position_health` (rebalancer.py
lines 282-305). Returns `(needs_rebalance, reason, urgency)`; the source
initializes `needs_rebalance = False`, `rebalance_reason = ""`,
`rebalance_urgency = "LOW"` before the chain. -/
def analyze_position_health (rs : RangeStatusDict) (liquidity : ℕ)
    (rebalance_threshold : ℚ) : Bool × RebalanceTrigger × Urgency :=
  if rs.in_range = false then (true, .outOfRange, .HIGH)
  else if rs.position_ratio < rebalance_threshold then (true, .nearEdge, .MEDIUM)
  else if liquidity = 0 then (true, .zeroLiquidity, .HIGH)
  else if rs.range_utilization.getD 1 < 3/10 then (true, .lowEfficiency, .LOW)
  else if 5 < rs.volatility.getD 0 ∧ rs.position_ratio < 3/10 then
    (true, .highVolatility, .MEDIUM)
  else (false, .noTrigger, .LOW)

/-! ### Range status metrics (core/uniswap.py lines 844-913) -/

structure RangeMetrics where
  in_range : Bool
  position_ratio : ℚ
  range_utilization : ℚ
  tick_deviation : ℚ

/-- The metric computation of `is_position_in_range` (uniswap.py lines
870-894), as a function of the fetched ticks. -/
def is_position_in_range (current_tick tick_lower tick_upper : ℤ) : RangeMetrics :=
  let in_range : Bool := decide (tick_lower ≤ current_tick ∧ current_tick ≤ tick_upper)
  let total_range := tick_upper - tick_lower
  if 0 < total_range then
    let position_ratio : ℚ :=
      ((min (current_tick - tick_lower) (tick_upper - current_tick) : ℤ) : ℚ) /
        ((total_range : ℤ) : ℚ)
    let range_utilization : ℚ := if in_range then 1 - 2 * position_ratio else 0
    let tick_deviation : ℚ :=
      |(current_tick : ℚ) - ((tick_lower : ℚ) + (tick_upper : ℚ)) / 2| /
        (((total_range : ℤ) : ℚ) / 2)
    ⟨in_range, position_ratio, range_utilization, tick_deviation⟩
  else ⟨in_range, 0, 0, 0⟩

/-! ### Portfolio auto-balancing (core/rebalancer.py lines 45-149) -/

inductive BalanceOutcome
  | noBalances
  | alreadyBalanced
  | swapToken1ForToken0 (amount : ℚ)
  | swapToken0ForToken1 (amount : ℚ)
  deriving DecidableEq

/-- The balancing core of `auto_balance_portfolio` (rebalancer.py lines
88-143): total-value and target computation, the `$0.01` threshold check,
and the 0.80-scaled swap decision. Balance/gas/pool fetching (external
boundary) is abstracted into the arguments. `noBalances` is the
`total_value_token1 == 0` early `return False`. -/
def auto_balance_portfolio (token0_balance token1_balance current_price
    target_ratio : ℚ) : BalanceOutcome :=
  let total_value_token1 := token1_balance + token0_balance * current_price
  if total_value_token1 = 0 then .noBalances
  else
    let target_token1_value := total_value_token1 * target_ratio
    let target_token0_amount := total_value_token1 * (1 - target_ratio) / current_price
    let token0_diff := target_token0_amount - token0_balance
    let token1_diff := target_token1_value - token1_balance
    if |token0_diff| < 1/100 ∧ |token1_diff| < 1/100 then .alreadyBalanced
    else if 0 < token0_diff then .swapToken1ForToken0 (|token1_diff| * (4/5))
    else .swapToken0ForToken1 (|token0_diff| * (4/5))

/-! ### Retrying swap executor (core/rebalancer.py lines 151-216) -/

def MAX_RETRIES : ℕ := 3

def CELO_SLIPPAGE : ℚ := 4

/-- Slippage tolerance of the 0-indexed attempt `i`
(rebalancer.py line 181: `self.CELO_SLIPPAGE + (attempt * 2.0)`). -/
def attempt_slippage (attempt : ℕ) : ℚ := CELO_SLIPPAGE + attempt * 2

/-- The retry loop of `_execute_celo_optimized_swap` (lines 179-212):
`succeeds i` abstracts the outcome of the i-th underlying attempt
(`_execute_swap_with_slippage`). First argument is remaining fuel, second
the attempt index. Returns the slippages actually attempted, in order, and
the overall boolean result. -/
def swap_retry_loop (succeeds : ℕ → Bool) : ℕ → ℕ → List ℚ × Bool
  | 0, _ => ([], false)
  | n + 1, i =>
    if succeeds i then ([attempt_slippage i], true)
    else (attempt_slippage i :: (swap_retry_loop succeeds n (i + 1)).1,
          (swap_retry_loop succeeds n (i + 1)).2)

def execute_celo_optimized_swap (succeeds : ℕ → Bool) : List ℚ × Bool :=
  swap_retry_loop succeeds MAX_RETRIES 0

/-! ### Rebalance plan execution (core/rebalancer.py lines 412-445) -/

/-- The action loop of `execute_rebalance_plan` on the already-sorted list:
`ex` abstracts `_execute_single_action`, `pr` reads the action's priority.
Returns the overall result and the list of actions actually executed, in
order. A failing action of priority 1 returns `False` immediately; other
failures continue with the remaining actions. -/
def run_sorted_actions {α : Type} (ex : α → Bool) (pr : α → ℤ) :
    List α → Bool × List α
  | [] => (true, [])
  | a :: rest =>
    if ex a then
      ((run_sorted_actions ex pr rest).1, a :: (run_sorted_actions ex pr rest).2)
    else if pr a = 1 then (false, [a])
    else
      ((run_sorted_actions ex pr rest).1, a :: (run_sorted_actions ex pr rest).2)

/-- `execute_rebalance_plan` (lines 412-445): stable-sorts the actions by
ascending priority (`actions.sort(key=lambda x: x.priority)`) and runs the
loop. -/
def execute_rebalance_plan {α : Type} (ex : α → Bool) (pr : α → ℤ)
    (actions : List α) : Bool × List α :=
  run_sorted_actions ex pr (List.mergeSort actions (fun a b => decide (pr a ≤ pr b)))

/-! ### Dynamic range calculation (core/uniswap.py lines 253-314) -/

inductive RangeMethod
  | fixed
  | volatility_based
  | adaptive
  | other
  deriving DecidableEq

/-- The configuration fields read by `calculate_dynamic_range`
(config/settings.py). `other` stands for any unrecognized
`range_calculation_method` string (falls through to `base_range`). -/
structure RangeConfig where
  price_range_percent : ℚ
  min_price_range_percent : ℚ
  max_price_range_percent : ℚ
  dynamic_range : Bool
  volatility_multiplier : ℚ
  range_buffer_percent : ℚ
  range_calculation_method : RangeMethod

/-- Python `min(list)` for the nonempty lists reached by the source. -/
def listMin : List ℚ → ℚ
  | [] => 0
  | a :: t => t.foldl min a

/-- Python `max(list)` for the nonempty lists reached by the source. -/
def listMax : List ℚ → ℚ
  | [] => 0
  | a :: t => t.foldl max a

/-- `calculate_dynamic_range` (uniswap.py lines 253-314). `volatility`
abstracts `self.calculate_price_volatility()` and `price_history` the
module price history (`history[-5:]` is `drop (length - 5)`). -/
def calculate_dynamic_range (current_price : ℚ) (cfg : RangeConfig)
    (volatility : ℚ) (price_history : List ℚ) : ℚ :=
  if current_price ≤ 0 then cfg.price_range_percent
  else if cfg.dynamic_range = false then cfg.price_range_percent
  else
    match cfg.range_calculation_method with
    | .fixed => cfg.price_range_percent
    | .volatility_based =>
      let adjusted_range :=
        if 0 < volatility then
          cfg.price_range_percent + min (volatility * cfg.volatility_multiplier) 5
        else cfg.price_range_percent
      min cfg.max_price_range_percent (max cfg.min_price_range_percent adjusted_range)
    | .adaptive =>
      let adaptive0 :=
        if 5 ≤ price_history.length then
          let recent := price_history.drop (price_history.length - 5)
          let price_min := listMin recent
          let price_max := listMax recent
          if 0 < price_min then
            max cfg.price_range_percent
              ((price_max - price_min) / current_price * 100 + cfg.range_buffer_percent)
          else cfg.price_range_percent
        else cfg.price_range_percent
      let adaptive1 :=
        if 0 < volatility then adaptive0 + volatility * cfg.volatility_multiplier
        else adaptive0
      min cfg.max_price_range_percent (max cfg.min_price_range_percent adaptive1)
    | .other => cfg.price_range_percent

/-! ### Token swap submission (core/uniswap.py lines 749-842) -/

/-- The `exactInputSingle` parameters assembled by `swap_tokens` that the
claims are about (token addresses as abstract ids; recipient, deadline and
the zero `sqrtPriceLimitX96` omitted). -/
structure SwapParams where
  token_in : ℕ
  token_out : ℕ
  fee : ℕ
  amount_in : ℤ
  amount_out_minimum : ℤ
  deriving DecidableEq

/-- `_validate_swap_params` (uniswap.py lines 815-842), addresses abstracted
to ids (checksum validation elided). -/
def validate_swap_params (token_in token_out : ℕ) (amount_in : ℤ) (fee : ℕ) : Bool :=
  decide (token_in ≠ token_out ∧ 0 < amount_in ∧
    (fee = 100 ∨ fee = 500 ∨ fee = 3000 ∨ fee = 10000))

/-- `swap_tokens` (uniswap.py lines 749-813) up to parameter assembly:
validation, then the `min_amount_out == 0` substitution
`int(amount_in * (1 - 0.05))` (line 766-768), then the submitted params.
`none` is the validation-failure path. -/
def swap_tokens (token_in token_out : ℕ) (amount_in : ℤ) (fee : ℕ)
    (min_amount_out : ℤ) : Option SwapParams :=
  if validate_swap_params token_in token_out amount_in fee then
    some ⟨token_in, token_out, fee, amount_in,
      if min_amount_out = 0 then pyInt ((amount_in : ℚ) * (1 - 5/100))
      else min_amount_out⟩
  else none

/-! ### Position removal (core/uniswap.py lines 653-711) -/

structure PositionInfo where
  token_id : ℕ
  liquidity : ℕ

inductive RemoveOutcome
  | notFound
  | alreadySuccess
  | submitDecrease (liquidity : ℕ)
  deriving DecidableEq

/-- The control flow of `remove_position` (uniswap.py lines 653-711) up to
transaction construction: lookup failure returns `False`; zero liquidity
returns `True` immediately; otherwise a `decreaseLiquidity` transaction is
built and sent for the full liquidity. -/
def remove_position (info : Option PositionInfo) : RemoveOutcome :=
  match info with
  | none => .notFound
  | some p => if p.liquidity = 0 then .alreadySuccess else .submitDecrease p.liquidity

/-- The immediate boolean returned on each outcome (`none` when the code
proceeds to the transaction path, whose result depends on the chain). -/
def remove_outcome_returns : RemoveOutcome → Option Bool
  | .notFound => some false
  | .alreadySuccess => some true
  | .submitDecrease _ => none

/-- Whether the outcome involves building and sending a transaction. -/
def remove_outcome_sends_tx : RemoveOutcome → Bool
  | .submitDecrease _ => true
  | _ => false

/-! ## Helper lemmas -/

theorem pyInt_eq_floor (q : ℚ) (h : 0 ≤ q) : pyInt q = ⌊q⌋ := by
  rw [pyInt, Rat.floor_def, Int.tdiv_eq_ediv (Rat.num_nonneg.mpr h) (by positivity)]

theorem pyInt_neg (q : ℚ) : pyInt (-q) = -pyInt q := by
  rw [pyInt, pyInt, Rat.num_neg_eq_neg_num, Rat.den_neg_eq_den, Int.neg_tdiv]

theorem pyInt_eq_ceil (q : ℚ) (h : q < 0) : pyInt q = ⌈q⌉ := by
  have h1 : pyInt q = -pyInt (-q) := by rw [pyInt_neg, neg_neg]
  rw [h1, pyInt_eq_floor (-q) (by linarith), ← Int.ceil_neg, neg_neg]

/-! ## Claim C3 -/

/-- Claim C3, counterexample: at a positive price below 1 whose exact
log-ratio `ln(price)/ln(1.0001)` equals `-1/2`, the code's `int(...)`
truncation returns `0`, while the claimed floor is `-1`. -/
theorem price_to_tick_counterexample :
    price_to_tick (-1/2) = 0 ∧ ⌊(-1/2 : ℚ)⌋ = -1 ∧ (0 : ℤ) ≠ -1 :=
  ⟨by rw [price_to_tick, pyInt_eq_ceil _ (by norm_num)]; norm_num, by norm_num, by decide⟩

/-- Claim C3 (amended): `price_to_tick` truncates `ln(price)/ln(1.0001)`
toward zero — it agrees with the floor exactly on nonnegative log-ratios
(prices at least 1) and equals the ceiling on negative ones — and at the
`calculate_tick_range` call site a non-positive price fails (no tick is
returned) rather than producing a tick. -/
theorem price_to_tick_amended (price logRatio : ℚ) :
    (price ≤ 0 → price_to_tick_checked price logRatio = none) ∧
    (0 < price → price_to_tick_checked price logRatio = some (price_to_tick logRatio)) ∧
    (0 ≤ logRatio → price_to_tick logRatio = ⌊logRatio⌋) ∧
    (logRatio < 0 → price_to_tick logRatio = ⌈logRatio⌉) := by
  refine ⟨fun h => ?_, fun h => ?_, fun h => pyInt_eq_floor logRatio h,
    fun h => pyInt_eq_ceil logRatio h⟩
  · rw [price_to_tick_checked, if_pos h]
  · rw [price_to_tick_checked, if_neg (not_le.mpr h)]

theorem price_to_tick_amended_witness :
    price_to_tick_checked (-1) 5 = none ∧
    price_to_tick_checked 2 (3/2) = some (price_to_tick (3/2)) ∧
    price_to_tick (3/2) = ⌊(3/2 : ℚ)⌋ ∧
    price_to_tick (-3/2) = ⌈(-3/2 : ℚ)⌉ :=
  ⟨(price_to_tick_amended (-1) 5).1 (by norm_num),
   (price_to_tick_amended 2 (3/2)).2.1 (by norm_num),
   (price_to_tick_amended 2 (3/2)).2.2.1 (by norm_num),
   (price_to_tick_amended 2 (-3/2)).2.2.2 (by norm_num)⟩

/-! ## Claim C1 -/

theorem round_ticks_spec (ct u0 l0 s : ℤ) (hs : 1 ≤ s) :
    s ∣ (round_ticks ct u0 l0 s).1 ∧ s ∣ (round_ticks ct u0 l0 s).2 ∧
    (if s = 1 then 30 ≤ (round_ticks ct u0 l0 s).2 - (round_ticks ct u0 l0 s).1
     else 2 * s ≤ (round_ticks ct u0 l0 s).2 - (round_ticks ct u0 l0 s).1) := by
  simp only [round_ticks]
  split_ifs with h1 h2 h2
  · subst h1
    simp only [Int.fdiv_one, mul_one]
    exact ⟨one_dvd _, one_dvd _, by omega⟩
  · subst h1
    simp only [Int.fdiv_one, mul_one] at h2 ⊢
    exact ⟨one_dvd _, one_dvd _, by omega⟩
  · refine ⟨⟨Int.fdiv ct s - 1, by ring⟩, ⟨Int.fdiv ct s + 1, by ring⟩, ?_⟩
    simp only []
    linarith
  · refine ⟨⟨Int.fdiv l0 s, mul_comm _ _⟩, ⟨Int.fdiv u0 s + 1, mul_comm _ _⟩, ?_⟩
    simp only []
    linarith [not_lt.mp h2]

/-- Claim C1: whenever `calculate_tick_range` returns a tick pair (for a
positive tick spacing), the pair satisfies `lower < upper`, both ticks are
multiples of the spacing, both lie within `[MIN_TICK, MAX_TICK]`, and the
width is at least the applicable minimum (30 ticks when the spacing is 1,
otherwise `2 * spacing`). -/
theorem calculate_tick_range_valid (cp rp lc lu ll : ℚ) (s lo hi : ℤ) (hs : 1 ≤ s)
    (h : calculate_tick_range cp rp lc lu ll s = some (lo, hi)) :
    lo < hi ∧ s ∣ lo ∧ s ∣ hi ∧ MIN_TICK ≤ lo ∧ lo ≤ MAX_TICK ∧
    MIN_TICK ≤ hi ∧ hi ≤ MAX_TICK ∧
    (if s = 1 then 30 ≤ hi - lo else 2 * s ≤ hi - lo) := by
  obtain ⟨spec1, spec2, spec3⟩ :=
    round_ticks_spec (price_to_tick lc) (price_to_tick lu) (price_to_tick ll) s hs
  simp only [calculate_tick_range] at h
  by_cases h1 : cp ≤ 0
  · rw [if_pos h1] at h; exact absurd h (by simp)
  rw [if_neg h1] at h
  by_cases h2 : rp ≤ 0
  · rw [if_pos h2] at h; exact absurd h (by simp)
  rw [if_neg h2] at h
  by_cases h3 :
      (round_ticks (price_to_tick lc) (price_to_tick lu) (price_to_tick ll) s).1
          < MIN_TICK ∨
      MAX_TICK <
        (round_ticks (price_to_tick lc) (price_to_tick lu) (price_to_tick ll) s).2
  · rw [if_pos h3] at h; exact absurd h (by simp)
  rw [if_neg h3] at h
  have hpair := Option.some.inj h
  have hlo :
      (round_ticks (price_to_tick lc) (price_to_tick lu) (price_to_tick ll) s).1 = lo := by
    rw [hpair]
  have hhi :
      (round_ticks (price_to_tick lc) (price_to_tick lu) (price_to_tick ll) s).2 = hi := by
    rw [hpair]
  push_neg at h3
  rw [hlo] at spec1 spec3 h3
  rw [hhi] at spec2 spec3 h3
  have hlt : lo < hi := by
    by_cases hs1 : s = 1
    · rw [if_pos hs1] at spec3; omega
    · rw [if_neg hs1] at spec3; linarith
  exact ⟨hlt, spec1, spec2, h3.1, le_trans hlt.le h3.2, le_trans h3.1 hlt.le, h3.2, spec3⟩

theorem calculate_tick_range_valid_witness :
    (75480 : ℤ) < 76560 ∧ (60 : ℤ) ∣ 75480 ∧ (60 : ℤ) ∣ 76560 ∧
    MIN_TICK ≤ (75480 : ℤ) ∧ (75480 : ℤ) ≤ MAX_TICK ∧
    MIN_TICK ≤ (76560 : ℤ) ∧ (76560 : ℤ) ≤ MAX_TICK ∧
    (if (60 : ℤ) = 1 then 30 ≤ (76560 : ℤ) - 75480 else 2 * 60 ≤ (76560 : ℤ) - 75480) :=
  calculate_tick_range_valid 2000 5 76012 76500 75500 60 75480 76560 (by norm_num) (by
    have e1 : price_to_tick (76012 : ℚ) = 76012 := by
      rw [price_to_tick, pyInt_eq_floor _ (by norm_num)]; norm_num
    have e2 : price_to_tick (76500 : ℚ) = 76500 := by
      rw [price_to_tick, pyInt_eq_floor _ (by norm_num)]; norm_num
    have e3 : price_to_tick (75500 : ℚ) = 75500 := by
      rw [price_to_tick, pyInt_eq_floor _ (by norm_num)]; norm_num
    have e4 : round_ticks 76012 76500 75500 60 = (75480, 76560) := by decide
    simp only [calculate_tick_range, e1, e2, e3, e4]
    norm_num [MIN_TICK, MAX_TICK])

/-! ## Claim C2 -/

/-- Claim C2, counterexample: an in-range position with zero liquidity and
`position_ratio = 0.5` below the threshold `0.8` is classified MEDIUM with
the near-edge reason — the `position_ratio < threshold` branch precedes the
`liquidity == 0` branch in the source's elif chain — not HIGH with the
zero-liquidity reason as the claim states. -/
theorem analyze_position_health_counterexample :
    analyze_position_health ⟨true, 1/2, none, none⟩ 0 (4/5) =
      (true, RebalanceTrigger.nearEdge, Urgency.MEDIUM) ∧
    Urgency.MEDIUM ≠ Urgency.HIGH ∧
    RebalanceTrigger.nearEdge ≠ RebalanceTrigger.zeroLiquidity := by
  refine ⟨by norm_num [analyze_position_health], by decide, by decide⟩

/-- Claim C2 (amended): a zero-liquidity position is reported as
needs-rebalance with urgency HIGH and the zero-liquidity reason only when it
is in range and its `position_ratio` is at least the rebalance threshold;
in-range positions with `position_ratio` below the threshold take the
MEDIUM near-edge branch first, regardless of liquidity. -/
theorem analyze_position_health_zero_liquidity (rs : RangeStatusDict) (thr : ℚ)
    (hin : rs.in_range = true) (hr : thr ≤ rs.position_ratio) :
    analyze_position_health rs 0 thr = (true, .zeroLiquidity, .HIGH) := by
  simp [analyze_position_health, hin, not_lt.mpr hr]

theorem analyze_position_health_zero_liquidity_witness :
    analyze_position_health ⟨true, 9/10, none, none⟩ 0 (4/5) =
      (true, .zeroLiquidity, .HIGH) :=
  analyze_position_health_zero_liquidity ⟨true, 9/10, none, none⟩ (4/5) rfl (by norm_num)

/-! ## Claim C4 -/

/-- Claim C4, counterexample: with `tick_lower = 0`, `tick_upper = 100` and
the out-of-range current tick `-50`, the computed `position_ratio` is
`min(-50, 150)/100 = -1/2`, which does not lie in `[0, 1]` — the claim's
"in range or out of range" part fails. -/
theorem is_position_in_range_counterexample :
    (is_position_in_range (-50) 0 100).position_ratio = -1/2 ∧
    ¬(0 ≤ (-1/2 : ℚ)) := by
  constructor
  · norm_num [is_position_in_range, min_def]
  · norm_num

/-- Claim C4 (amended): `position_ratio` always equals
`min(currentTick - tickLower, tickUpper - currentTick) / (tickUpper - tickLower)`
when `tickUpper > tickLower` (0 otherwise, which covers the
`tickUpper == tickLower` clamp); it lies in `[0, 1]` whenever the current
tick is in range, and is strictly negative when the current tick is out of
range of a non-degenerate interval. -/
theorem is_position_in_range_ratio_spec (cur lo hi : ℤ) :
    ((is_position_in_range cur lo hi).position_ratio =
      if 0 < hi - lo then
        ((min (cur - lo) (hi - cur) : ℤ) : ℚ) / ((hi - lo : ℤ) : ℚ)
      else 0) ∧
    (lo ≤ cur → cur ≤ hi →
      0 ≤ (is_position_in_range cur lo hi).position_ratio ∧
      (is_position_in_range cur lo hi).position_ratio ≤ 1) ∧
    (lo < hi → (cur < lo ∨ hi < cur) →
      (is_position_in_range cur lo hi).position_ratio < 0) ∧
    (hi = lo → (is_position_in_range cur lo hi).position_ratio = 0) := by
  by_cases htot : (0 : ℤ) < hi - lo
  · have hratio : (is_position_in_range cur lo hi).position_ratio =
        ((min (cur - lo) (hi - cur) : ℤ) : ℚ) / ((hi - lo : ℤ) : ℚ) := by
      simp only [is_position_in_range, htot, if_true]
    have hden : (0 : ℚ) < ((hi - lo : ℤ) : ℚ) := by exact_mod_cast htot
    refine ⟨by rw [hratio, if_pos htot], fun hin1 hin2 => ?_, fun _ hout => ?_,
      fun heq => absurd htot (by omega)⟩
    · rw [hratio]
      constructor
      · apply div_nonneg _ hden.le
        exact_mod_cast (by omega : (0 : ℤ) ≤ min (cur - lo) (hi - cur))
      · rw [div_le_one hden]
        exact_mod_cast (by omega : min (cur - lo) (hi - cur) ≤ hi - lo)
    · rw [hratio]
      apply div_neg_of_neg_of_pos _ hden
      exact_mod_cast (by omega : min (cur - lo) (hi - cur) < 0)
  · have hratio0 : (is_position_in_range cur lo hi).position_ratio = 0 := by
      simp only [is_position_in_range, if_neg htot]
    exact ⟨by rw [hratio0, if_neg htot], fun _ _ => by rw [hratio0]; norm_num,
      fun hlt _ => absurd htot (by omega), fun _ => hratio0⟩

theorem is_position_in_range_ratio_spec_witness :
    0 ≤ (is_position_in_range 25 0 100).position_ratio ∧
    (is_position_in_range 25 0 100).position_ratio ≤ 1 :=
  (is_position_in_range_ratio_spec 25 0 100).2.1 (by norm_num) (by norm_num)

/-! ## Claim C5 -/

/-- Claim C5, counterexample: with both balances zero (price 1,
`target_ratio = 0.5`) the diffs are 0, both below the 0.01 threshold, yet
`auto_balance_portfolio` returns the `total_value_token1 == 0` failure
(`return False`, line 91-93), not the "already balanced" success the
claim's biconditional requires. -/
theorem auto_balance_portfolio_counterexample :
    auto_balance_portfolio 0 0 1 (1/2) = .noBalances ∧
    BalanceOutcome.noBalances ≠ .alreadyBalanced ∧
    |((0 : ℚ) + 0 * 1) * (1 - 1/2) / 1 - 0| < 1/100 ∧
    |((0 : ℚ) + 0 * 1) * (1/2) - 0| < 1/100 := by
  refine ⟨by norm_num [auto_balance_portfolio], by decide, by norm_num, by norm_num⟩

/-- Claim C5 (amended): provided the total portfolio value
`balance1 + balance0 * price` is nonzero, `auto_balance_portfolio` with
`target_ratio = 0.5` reports "already balanced" (no swap) exactly when
`|diff0|` and `|diff1|` are both below the 0.01 threshold; otherwise it
swaps `0.80 ×` the absolute surplus in the correct direction (token1 into
token0 when `diff0 > 0`, token0 into token1 otherwise). When the total
value is zero it reports failure without swapping. -/
theorem auto_balance_portfolio_spec (b0 b1 p : ℚ) (hp : 0 < p)
    (ht : b1 + b0 * p ≠ 0) :
    (auto_balance_portfolio b0 b1 p (1/2) = .alreadyBalanced ↔
      |(b1 + b0 * p) * (1 - 1/2) / p - b0| < 1/100 ∧
      |(b1 + b0 * p) * (1/2) - b1| < 1/100) ∧
    (¬(|(b1 + b0 * p) * (1 - 1/2) / p - b0| < 1/100 ∧
        |(b1 + b0 * p) * (1/2) - b1| < 1/100) →
      (0 < (b1 + b0 * p) * (1 - 1/2) / p - b0 →
        auto_balance_portfolio b0 b1 p (1/2) =
          .swapToken1ForToken0 (|(b1 + b0 * p) * (1/2) - b1| * (4/5))) ∧
      ((b1 + b0 * p) * (1 - 1/2) / p - b0 ≤ 0 →
        auto_balance_portfolio b0 b1 p (1/2) =
          .swapToken0ForToken1 (|(b1 + b0 * p) * (1 - 1/2) / p - b0| * (4/5)))) := by
  have hdef : auto_balance_portfolio b0 b1 p (1/2) =
      (if |(b1 + b0 * p) * (1 - 1/2) / p - b0| < 1/100 ∧
          |(b1 + b0 * p) * (1/2) - b1| < 1/100 then BalanceOutcome.alreadyBalanced
       else if 0 < (b1 + b0 * p) * (1 - 1/2) / p - b0 then
         .swapToken1ForToken0 (|(b1 + b0 * p) * (1/2) - b1| * (4/5))
       else .swapToken0ForToken1 (|(b1 + b0 * p) * (1 - 1/2) / p - b0| * (4/5))) := by
    simp only [auto_balance_portfolio]
    rw [if_neg ht]
  rw [hdef]
  by_cases hbal : |(b1 + b0 * p) * (1 - 1/2) / p - b0| < 1/100 ∧
      |(b1 + b0 * p) * (1/2) - b1| < 1/100
  · rw [if_pos hbal]
    exact ⟨⟨fun _ => hbal, fun _ => rfl⟩, fun hn => absurd hbal hn⟩
  · rw [if_neg hbal]
    refine ⟨⟨fun hEq => ?_, fun hb => absurd hb hbal⟩,
      fun _ => ⟨fun hd0 => ?_, fun hd0 => ?_⟩⟩
    · by_cases hd : 0 < (b1 + b0 * p) * (1 - 1/2) / p - b0
      · rw [if_pos hd] at hEq; simp at hEq
      · rw [if_neg hd] at hEq; simp at hEq
    · rw [if_pos hd0]
    · rw [if_neg (not_lt.mpr hd0)]

theorem auto_balance_portfolio_spec_witness :
    auto_balance_portfolio 1000 0 1 (1/2) =
      .swapToken0ForToken1 (|((0 : ℚ) + 1000 * 1) * (1 - 1/2) / 1 - 1000| * (4/5)) :=
  ((auto_balance_portfolio_spec 1000 0 1 (by norm_num) (by norm_num)).2
    (by simp only [abs_lt]; norm_num)).2 (by norm_num)

/-! ## Claim C6 -/

/-- Claim C6: when every underlying swap attempt fails, the retry loop of
`_execute_celo_optimized_swap` makes exactly `MAX_RETRIES = 3` attempts,
with strictly increasing slippage tolerances
(`CELO_SLIPPAGE + attempt * 2` for the 0-indexed attempt), and then reports
failure by returning `false` rather than raising. -/
theorem execute_celo_optimized_swap_all_fail (succeeds : ℕ → Bool)
    (h : ∀ i, succeeds i = false) :
    (execute_celo_optimized_swap succeeds).1 =
      [attempt_slippage 0, attempt_slippage 1, attempt_slippage 2] ∧
    (execute_celo_optimized_swap succeeds).1.length = MAX_RETRIES ∧
    List.Chain' (· < ·) (execute_celo_optimized_swap succeeds).1 ∧
    (execute_celo_optimized_swap succeeds).2 = false := by
  have hs : succeeds = fun _ => false := funext h
  subst hs
  refine ⟨rfl, rfl, ?_, rfl⟩
  show List.Chain' (· < ·) [attempt_slippage 0, attempt_slippage 1, attempt_slippage 2]
  norm_num [List.chain'_cons, attempt_slippage, CELO_SLIPPAGE]

theorem execute_celo_optimized_swap_all_fail_witness :
    (execute_celo_optimized_swap fun _ => false).1 =
      [attempt_slippage 0, attempt_slippage 1, attempt_slippage 2] ∧
    (execute_celo_optimized_swap fun _ => false).1.length = MAX_RETRIES ∧
    List.Chain' (· < ·) (execute_celo_optimized_swap fun _ => false).1 ∧
    (execute_celo_optimized_swap fun _ => false).2 = false :=
  execute_celo_optimized_swap_all_fail (fun _ => false) (fun _ => rfl)

/-! ## Claim C7 -/

theorem run_sorted_actions_ok {α : Type} (ex : α → Bool) (pr : α → ℤ) :
    ∀ l : List α, (∀ a ∈ l, pr a = 1 → ex a = true) →
      run_sorted_actions ex pr l = (true, l) := by
  intro l
  induction l with
  | nil => intro _; rfl
  | cons a t ih =>
    intro hall
    have ht := ih (fun b hb hp => hall b (List.mem_cons_of_mem a hb) hp)
    cases hexv : ex a with
    | true => simp only [run_sorted_actions, hexv, if_true, ht]
    | false =>
      have hpr : ¬(pr a = 1) := fun hp => by
        have := hall a (List.mem_cons_self a t) hp
        rw [hexv] at this
        cases this
      simp only [run_sorted_actions, hexv, Bool.false_eq_true, if_false, if_neg hpr, ht]

theorem run_sorted_actions_fail {α : Type} (ex : α → Bool) (pr : α → ℤ) :
    ∀ l : List α, ¬(∀ a ∈ l, pr a = 1 → ex a = true) →
      ∃ l₁ a l₂, l = l₁ ++ a :: l₂ ∧ pr a = 1 ∧ ex a = false ∧
        (∀ b ∈ l₁, pr b = 1 → ex b = true) ∧
        run_sorted_actions ex pr l = (false, l₁ ++ [a]) := by
  intro l
  induction l with
  | nil => intro hn; exact absurd (by intro a ha; cases ha) hn
  | cons a t ih =>
    intro hn
    by_cases hfail : pr a = 1 ∧ ex a = false
    · refine ⟨[], a, t, rfl, hfail.1, hfail.2,
        fun b hb => absurd hb (List.not_mem_nil b), ?_⟩
      simp only [run_sorted_actions, hfail.2, Bool.false_eq_true, if_false,
        if_pos hfail.1, List.nil_append]
    · have hok : pr a = 1 → ex a = true := by
        intro hp
        cases hexv : ex a with
        | false => exact absurd ⟨hp, hexv⟩ hfail
        | true => rfl
      have hnt : ¬(∀ b ∈ t, pr b = 1 → ex b = true) := by
        intro hall
        refine hn ?_
        intro b hb hp
        rcases List.mem_cons.mp hb with hb1 | hb2
        · subst hb1; exact hok hp
        · exact hall b hb2 hp
      obtain ⟨l₁, x, l₂, heq, hx1, hx2, hpre, hrun⟩ := ih hnt
      refine ⟨a :: l₁, x, l₂, by rw [heq]; rfl, hx1, hx2, ?_, ?_⟩
      · intro b hb
        rcases List.mem_cons.mp hb with hb1 | hb2
        · subst hb1; exact hok
        · exact hpre b hb2
      · cases hexv : ex a with
        | true => simp only [run_sorted_actions, hexv, if_true, hrun, List.cons_append]
        | false =>
          have hpr : ¬(pr a = 1) := fun hp => by
            have := hok hp
            rw [hexv] at this
            cases this
          simp only [run_sorted_actions, hexv, Bool.false_eq_true, if_false,
            if_neg hpr, hrun, List.cons_append]

theorem mergeSort_pairwise {α : Type} (pr : α → ℤ) (l : List α) :
    (List.mergeSort l (fun a b => decide (pr a ≤ pr b))).Pairwise
      (fun a b => pr a ≤ pr b) := by
  have h := List.sorted_mergeSort
    (fun (a b c : α) (hab : (fun a b => decide (pr a ≤ pr b)) a b)
      (hbc : (fun a b => decide (pr a ≤ pr b)) b c) => by
        simp only [decide_eq_true_eq] at hab hbc ⊢
        exact le_trans hab hbc)
    (fun a b => by
      simp only [Bool.or_eq_true, decide_eq_true_eq]
      exact le_total (pr a) (pr b))
    l
  exact h.imp (fun hab => by simpa using hab)

/-- Claim C7: `execute_rebalance_plan` processes the actions in ascending
priority order (the executed list is sorted by priority). If every
priority-1 action succeeds, all sorted actions are executed and the overall
result is success — failures at priorities 2 and 3 do not stop execution.
Otherwise the overall result is failure and execution stops exactly at the
first failing priority-1 action: the executed list is the sorted prefix up
to and including that action, and no later action runs. -/
theorem execute_rebalance_plan_spec {α : Type} (ex : α → Bool) (pr : α → ℤ)
    (actions : List α) :
    (execute_rebalance_plan ex pr actions).2.Pairwise (fun a b => pr a ≤ pr b) ∧
    ((∀ a ∈ actions, pr a = 1 → ex a = true) →
      execute_rebalance_plan ex pr actions =
        (true, List.mergeSort actions (fun a b => decide (pr a ≤ pr b)))) ∧
    (¬(∀ a ∈ actions, pr a = 1 → ex a = true) →
      (execute_rebalance_plan ex pr actions).1 = false ∧
      ∃ l₁ a l₂,
        List.mergeSort actions (fun a b => decide (pr a ≤ pr b)) = l₁ ++ a :: l₂ ∧
        pr a = 1 ∧ ex a = false ∧ (∀ b ∈ l₁, pr b = 1 → ex b = true) ∧
        (execute_rebalance_plan ex pr actions).2 = l₁ ++ [a]) := by
  have hmem : ∀ a, a ∈ List.mergeSort actions (fun a b => decide (pr a ≤ pr b)) ↔
      a ∈ actions :=
    fun a => (List.mergeSort_perm actions (fun a b => decide (pr a ≤ pr b))).mem_iff
  have hsorted := mergeSort_pairwise pr actions
  by_cases hall : ∀ a ∈ actions, pr a = 1 → ex a = true
  · have hruns : execute_rebalance_plan ex pr actions =
        (true, List.mergeSort actions (fun a b => decide (pr a ≤ pr b))) :=
      run_sorted_actions_ok ex pr _ (fun a ha hp => hall a ((hmem a).mp ha) hp)
    refine ⟨?_, fun _ => hruns, fun hn => absurd hall hn⟩
    rw [hruns]
    exact hsorted
  · have hn2 : ¬(∀ a ∈ List.mergeSort actions (fun a b => decide (pr a ≤ pr b)),
        pr a = 1 → ex a = true) := by
      intro h2
      exact hall (fun a ha hp => h2 a ((hmem a).mpr ha) hp)
    obtain ⟨l₁, x, l₂, heq, hx1, hx2, hpre, hrun⟩ := run_sorted_actions_fail ex pr _ hn2
    have hplan : execute_rebalance_plan ex pr actions = (false, l₁ ++ [x]) := hrun
    refine ⟨?_, fun h2 => absurd h2 hall,
      fun _ => ⟨by rw [hplan], l₁, x, l₂, heq, hx1, hx2, hpre, by rw [hplan]⟩⟩
    rw [hplan]
    have hsub : List.Sublist (l₁ ++ [x])
        (List.mergeSort actions (fun a b => decide (pr a ≤ pr b))) := by
      rw [heq]
      exact List.Sublist.append_left
        (List.singleton_sublist.mpr (List.mem_cons_self x l₂)) l₁
    exact List.Pairwise.sublist hsub hsorted

theorem execute_rebalance_plan_spec_witness :
    execute_rebalance_plan (fun p : ℕ × ℤ => decide (p.1 ≠ 1))
      (fun p : ℕ × ℤ => p.2) [(1, 2), (2, 1), (3, 3)] =
      (true, List.mergeSort [((1 : ℕ), (2 : ℤ)), (2, 1), (3, 3)]
        (fun a b => decide (a.2 ≤ b.2))) :=
  (execute_rebalance_plan_spec (fun p : ℕ × ℤ => decide (p.1 ≠ 1))
    (fun p : ℕ × ℤ => p.2) [(1, 2), (2, 1), (3, 3)]).2.1 (by decide)

/-! ## Claim C8 -/

theorem clamp_bounds (lo hi x : ℚ) (h : lo ≤ hi) :
    lo ≤ min hi (max lo x) ∧ min hi (max lo x) ≤ hi :=
  ⟨le_min h (le_max_left lo x), min_le_left hi _⟩

/-- Claim C8, counterexample: a configuration with `dynamic_range = false`
and `range_calculation_method = "volatility_based"` (base 10, min 1, max 5)
returns the base range 10 outside `[min, max]` — the early
`if not config.dynamic_range: return base_range` (line 262) bypasses the
clamping the claim asserts for the volatilityBased method. -/
theorem calculate_dynamic_range_counterexample :
    calculate_dynamic_range 1 ⟨10, 1, 5, false, 3/2, 10, .volatility_based⟩ 0 [] = 10 ∧
    ¬((10 : ℚ) ≤ 5) := by
  constructor
  · norm_num [calculate_dynamic_range]
  · norm_num

/-- Claim C8 (amended): provided `dynamic_range` is enabled and
`minRangePercent ≤ maxRangePercent`, `calculate_dynamic_range` stays within
`[minRangePercent, maxRangePercent]` for the volatilityBased and adaptive
methods (for a valid positive price), returns exactly `baseRangePercent`
for the fixed method, and returns `baseRangePercent` whenever the current
price is non-positive; when `dynamic_range` is disabled it returns
`baseRangePercent` regardless of method. -/
theorem calculate_dynamic_range_spec (current_price volatility : ℚ)
    (hist : List ℚ) (cfg : RangeConfig) (hdyn : cfg.dynamic_range = true)
    (hmm : cfg.min_price_range_percent ≤ cfg.max_price_range_percent) :
    (0 < current_price →
      (cfg.range_calculation_method = RangeMethod.volatility_based ∨
       cfg.range_calculation_method = RangeMethod.adaptive) →
      cfg.min_price_range_percent ≤
        calculate_dynamic_range current_price cfg volatility hist ∧
      calculate_dynamic_range current_price cfg volatility hist ≤
        cfg.max_price_range_percent) ∧
    (0 < current_price → cfg.range_calculation_method = RangeMethod.fixed →
      calculate_dynamic_range current_price cfg volatility hist =
        cfg.price_range_percent) ∧
    (current_price ≤ 0 →
      calculate_dynamic_range current_price cfg volatility hist =
        cfg.price_range_percent) := by
  refine ⟨fun hp hm => ?_, fun hp hm => ?_, fun hp => ?_⟩
  · have hne : ¬(current_price ≤ 0) := not_le.mpr hp
    rcases hm with hm | hm <;>
      · simp only [calculate_dynamic_range]
        rw [if_neg hne, hdyn, if_neg (show ¬(true = false) by decide), hm]
        exact clamp_bounds _ _ _ hmm
  · have hne : ¬(current_price ≤ 0) := not_le.mpr hp
    simp only [calculate_dynamic_range]
    rw [if_neg hne, hdyn, if_neg (show ¬(true = false) by decide), hm]
  · simp only [calculate_dynamic_range]
    rw [if_pos hp]

theorem calculate_dynamic_range_spec_witness :
    (1 : ℚ) ≤ calculate_dynamic_range 1 ⟨5, 1, 20, true, 3/2, 10, .volatility_based⟩ 2 [] ∧
    calculate_dynamic_range 1 ⟨5, 1, 20, true, 3/2, 10, .volatility_based⟩ 2 [] ≤ 20 :=
  (calculate_dynamic_range_spec 1 2 [] ⟨5, 1, 20, true, 3/2, 10, .volatility_based⟩
    rfl (by norm_num)).1 (by norm_num) (Or.inl rfl)

/-! ## Claim C9 -/

/-- Claim C9: a `swap_tokens` call with the default `min_amount_out = 0`
and otherwise valid parameters submits the swap with the substituted
minimum `int(amount_in * (1 - 0.05))` — truncation of `19·amount_in/20`,
a floor since the amount is positive — which is a genuine nonzero minimum
for any `amount_in ≥ 20`. -/
theorem swap_tokens_default_min_out (token_in token_out : ℕ) (amount_in : ℤ)
    (fee : ℕ) (hv : validate_swap_params token_in token_out amount_in fee = true) :
    swap_tokens token_in token_out amount_in fee 0 =
      some ⟨token_in, token_out, fee, amount_in,
        pyInt ((amount_in : ℚ) * (1 - 5/100))⟩ ∧
    pyInt ((amount_in : ℚ) * (1 - 5/100)) = ⌊(19 * amount_in : ℚ) / 20⌋ ∧
    (20 ≤ amount_in → 0 < pyInt ((amount_in : ℚ) * (1 - 5/100))) := by
  have hpos : 0 < amount_in := (of_decide_eq_true hv).2.1
  have hposq : (0 : ℚ) ≤ (amount_in : ℚ) := by exact_mod_cast hpos.le
  have hq : (0 : ℚ) ≤ (amount_in : ℚ) * (1 - 5/100) := by nlinarith
  have hfl : pyInt ((amount_in : ℚ) * (1 - 5/100)) = ⌊(19 * amount_in : ℚ) / 20⌋ := by
    rw [pyInt_eq_floor _ hq]
    congr 1
    ring
  refine ⟨?_, hfl, fun h20 => ?_⟩
  · rw [swap_tokens, if_pos hv, if_pos rfl]
  · rw [hfl]
    have h20q : (20 : ℚ) ≤ (amount_in : ℚ) := by exact_mod_cast h20
    have h19 : (1 : ℚ) ≤ (19 * amount_in : ℚ) / 20 := by
      rw [le_div_iff₀ (by norm_num)]
      nlinarith
    have h1 : (1 : ℤ) ≤ ⌊(19 * amount_in : ℚ) / 20⌋ := by
      rw [Int.le_floor]
      exact_mod_cast h19
    omega

theorem swap_tokens_default_min_out_witness :
    swap_tokens 1 2 1000 3000 0 =
      some ⟨1, 2, 3000, 1000, pyInt (((1000 : ℤ) : ℚ) * (1 - 5/100))⟩ ∧
    pyInt (((1000 : ℤ) : ℚ) * (1 - 5/100)) = ⌊(19 * (1000 : ℤ) : ℚ) / 20⌋ ∧
    (20 ≤ (1000 : ℤ) → 0 < pyInt (((1000 : ℤ) : ℚ) * (1 - 5/100))) :=
  swap_tokens_default_min_out 1 2 1000 3000 (by decide)

/-! ## Claim C10 -/

/-- Claim C10: removing a position whose fetched liquidity is already 0
returns success immediately, without building or sending any transaction. -/
theorem remove_position_zero_liquidity (p : PositionInfo) (h : p.liquidity = 0) :
    remove_position (some p) = .alreadySuccess ∧
    remove_outcome_returns (remove_position (some p)) = some true ∧
    remove_outcome_sends_tx (remove_position (some p)) = false := by
  simp [remove_position, h, remove_outcome_returns, remove_outcome_sends_tx]

theorem remove_position_zero_liquidity_witness :
    remove_position (some ⟨5, 0⟩) = .alreadySuccess ∧
    remove_outcome_returns (remove_position (some ⟨5, 0⟩)) = some true ∧
    remove_outcome_sends_tx (remove_position (some ⟨5, 0⟩)) = false :=
  remove_position_zero_liquidity ⟨5, 0⟩ rfl

end UniswapBot
